import Mathlib

/-!
Shallow embedding of `src/jack-bluealsa-autobridge.c` (the Bluetooth-to-JACK
Autobridge Supervisor): config loading/reload, the supervised-child process
table, bridge launching, the reaper's restart-once policy, device removal
tear-down and graceful-then-forceful child termination.

Strings are Lean `String`s; the C string helpers (`trim`, `atoi`, `strstr`,
`g_strsplit_set`, `g_strjoin`) are modelled by structurally recursive
functions over `String.data` so every definition evaluates in the kernel.
The process table (`GHashTable` keyed by pid) is modelled as a `List child_t`
where insertion replaces any entry with the same pid.  External effects
(fork results, ALSA probe results, D-Bus property queries, child exit
times) are supplied through explicit environment parameters.
-/

namespace AutoBridge

/-- `g_ascii_isspace` / C `isspace` character set. -/
def gSpace (c : Char) : Bool :=
  c = ' ' || c = '\t' || c = '\n' || c = '\r' || c = Char.ofNat 11 || c = Char.ofNat 12

/-- `trim` from the source: strip leading and trailing whitespace. -/
def trim (s : String) : String :=
  String.mk (((s.data.dropWhile gSpace).reverse.dropWhile gSpace).reverse)

/-- Accumulating digit parser used by `atoi`: consume leading digits. -/
def atoiDigits : List Char → Int → Int
  | [], acc => acc
  | c :: rest, acc =>
    if c.isDigit then atoiDigits rest (acc * 10 + (c.toNat - 48 : Int)) else acc

/-- C `atoi`: skip whitespace, optional sign, then leading digits (0 if none). -/
def atoi (s : String) : Int :=
  match s.data.dropWhile gSpace with
  | '-' :: rest => - atoiDigits rest 0
  | '+' :: rest => atoiDigits rest 0
  | l => atoiDigits l 0

/-- Split at the first `'='` (C `strchr(t, '=')`): key part and value part. -/
def splitEq : List Char → Option (List Char × List Char)
  | [] => none
  | c :: rest =>
    if c = '=' then some ([], rest)
    else match splitEq rest with
      | none => none
      | some (k, v) => some (c :: k, v)

/-- `g_strsplit_set(s, " \t", -1)` followed by dropping empty tokens, as done
when the reaper re-parses a stored command line into an argv. -/
def splitWsAux : List Char → List Char → List String
  | [], acc => if acc.isEmpty then [] else [String.mk acc.reverse]
  | c :: rest, acc =>
    if c = ' ' || c = '\t' then
      if acc.isEmpty then splitWsAux rest [] else String.mk acc.reverse :: splitWsAux rest []
    else splitWsAux rest (c :: acc)

def splitWs (s : String) : List String := splitWsAux s.data []

/-- The pairwise `g_strjoin(" ", ...)` loop in `spawn_bridge` that records the
command line of a spawned child. -/
def joinArgs : List String → String
  | [] => ""
  | a :: rest => rest.foldl (fun acc s => acc ++ " " ++ s) a

/-- C `strstr(hay, sub) != NULL`: `sub` occurs contiguously in `hay`. -/
def strContains (hay sub : String) : Bool := decide (sub.data <:+: hay.data)

/-- `jb_config_t` from the source. -/
structure jb_config_t where
  a2dp_rate : Int
  a2dp_period : Int
  a2dp_nperiods : Int
  a2dp_channels : Int
  a2dp_drift_comp : Int
  sco_rate : Int
  sco_period : Int
  sco_nperiods : Int
  sco_channels : Int
  spawn_delay : Int
  child_term_timeout : Int
  log_file : String
  pid_file : String
  runtime_user : String
  max_bridges : Int
  deriving Repr, DecidableEq

/-- `load_default_config`. -/
def load_default_config : jb_config_t :=
  { a2dp_rate := 48000
    a2dp_period := 1024
    a2dp_nperiods := 3
    a2dp_channels := 2
    a2dp_drift_comp := 1
    sco_rate := 16000
    sco_period := 256
    sco_nperiods := 3
    sco_channels := 1
    spawn_delay := 0
    child_term_timeout := 4
    log_file := "/var/log/jack-bluealsa-autobridge.log"
    pid_file := "/var/run/jack-bluealsa-autobridge.pid"
    runtime_user := "jack"
    max_bridges := 8 }

/-- One iteration of the `fgets` loop in `load_config_from_file`: trim the
line, skip comments and lines without `'='`, split at the first `'='`, trim
key and value, and overlay any recognized key onto the config. -/
def processLine (cfg : jb_config_t) (line : String) : jb_config_t :=
  let t := trim line
  if t.data.head? = some '#' then cfg
  else match splitEq t.data with
    | none => cfg
    | some (kc, vc) =>
      let k := trim (String.mk kc)
      let v := trim (String.mk vc)
      if k = "A2DP_RATE" then { cfg with a2dp_rate := atoi v }
      else if k = "A2DP_PERIOD" then { cfg with a2dp_period := atoi v }
      else if k = "A2DP_NPERIODS" then { cfg with a2dp_nperiods := atoi v }
      else if k = "A2DP_CHANNELS" then { cfg with a2dp_channels := atoi v }
      else if k = "A2DP_DRIFT_COMP" then { cfg with a2dp_drift_comp := atoi v }
      else if k = "SCO_RATE" then { cfg with sco_rate := atoi v }
      else if k = "SCO_PERIOD" then { cfg with sco_period := atoi v }
      else if k = "SCO_NPERIODS" then { cfg with sco_nperiods := atoi v }
      else if k = "SCO_CHANNELS" then { cfg with sco_channels := atoi v }
      else if k = "SPAWN_DELAY" then { cfg with spawn_delay := atoi v }
      else if k = "CHILD_TERM_TIMEOUT" then { cfg with child_term_timeout := atoi v }
      else if k = "LOG_FILE" then { cfg with log_file := v }
      else if k = "PID_FILE" then { cfg with pid_file := v }
      else if k = "RUNTIME_USER" then { cfg with runtime_user := v }
      else if k = "MAX_BRIDGES" then { cfg with max_bridges := atoi v }
      else cfg

/-- `load_config_from_file`: `none` models `fopen` failure (the function
returns FALSE with `cfg` untouched); `some lines` models a readable file
whose lines are overlaid onto `cfg` in order. -/
def load_config_from_file (file : Option (List String)) (cfg : jb_config_t) :
    Option jb_config_t :=
  match file with
  | none => none
  | some lines => some (lines.foldl processLine cfg)

/-- `handle_reload`: build a fresh default config, overlay the file; on file
open failure keep the old config, otherwise replace it wholesale. -/
def handle_reload (file : Option (List String)) (cur : jb_config_t) : jb_config_t :=
  match load_config_from_file file load_default_config with
  | none => cur
  | some newCfg => newCfg

/-- `child_t` from the source: one supervised child in the process table. -/
structure child_t where
  pid : Nat
  name : String
  cmdline : String
  restart_count : Nat
  deriving Repr, DecidableEq

/-- The `children` GHashTable keyed by pid, as a list of records. -/
abbrev ProcessTable := List child_t

/-- `add_child` via `g_hash_table_insert`: a new record with restart count 0
replaces any existing record with the same pid. -/
def add_child (pid : Nat) (name cmdline : String) (tbl : ProcessTable) : ProcessTable :=
  { pid := pid, name := name, cmdline := cmdline, restart_count := 0 } ::
    tbl.filter (fun c => c.pid ≠ pid)

/-- `g_hash_table_lookup` by pid. -/
def lookupChild (pid : Nat) (tbl : ProcessTable) : Option child_t :=
  tbl.find? (fun c => c.pid = pid)

/-- `g_hash_table_remove` by pid (also models `remove_child`). -/
def removeChild (pid : Nat) (tbl : ProcessTable) : ProcessTable :=
  tbl.filter (fun c => c.pid ≠ pid)

/-- `nc->restart_count = ...` on the record with the given pid. -/
def setRestart (pid : Nat) (n : Nat) (tbl : ProcessTable) : ProcessTable :=
  tbl.map (fun c => if c.pid = pid then { c with restart_count := n } else c)

/-- `is_bridge_running_for_mac`: some child's job name contains the MAC. -/
def is_bridge_running_for_mac (mac : String) (tbl : ProcessTable) : Bool :=
  tbl.any (fun c => strContains c.name mac)

/-- Number of process-table entries whose job name contains `mac`. -/
def macCount (mac : String) (tbl : ProcessTable) : Nat :=
  tbl.countP (fun c => strContains c.name mac)

/-- ALSA stream direction passed to the availability probe. -/
inductive StreamDir
  | capture
  | playback
  deriving Repr, DecidableEq

/-- Decoded `org.bluealsa.PCM1` properties from `Properties.GetAll`
(`Profile`, `Direction`, `Type`), each possibly absent. -/
structure PcmProps where
  profile : Option String
  direction : Option String
  ptype : Option String
  deriving Repr, DecidableEq

/-- External-effect environment for one event: the property-query result
(`none` = `GetAll` failed), the ALSA probe outcome per device string and
stream, the pid returned by `fork` for the bridge spawn (`none` = fork
failed), and the pid of the forked autoconnect helper. -/
structure Env where
  query : Option PcmProps
  avail : String → StreamDir → Bool
  forkPid : Option Nat
  autoPid : Option Nat

/-- `format_bluealsa_device_arg` for the A2DP profile. -/
def a2dp_dev (mac : String) : String := "bluealsa:DEV=" ++ mac ++ ",PROFILE=a2dp"

/-- `format_bluealsa_device_arg` for the SCO profile. -/
def sco_dev (mac : String) : String := "bluealsa:DEV=" ++ mac ++ ",PROFILE=sco"

/-- argv built by `spawn_a2dp_sink_for`. -/
def a2dp_sink_argv (cfg : jb_config_t) (mac : String) : List String :=
  ["alsa_in", "-j", "bt_in_" ++ mac, "-d", a2dp_dev mac,
   "-r", toString cfg.a2dp_rate, "-p", toString cfg.a2dp_period,
   "-n", toString cfg.a2dp_nperiods, "-c", toString cfg.a2dp_channels]

/-- argv built by `spawn_a2dp_source_for`. -/
def a2dp_source_argv (cfg : jb_config_t) (mac : String) : List String :=
  ["alsa_out", "-j", "bt_out_" ++ mac, "-d", a2dp_dev mac,
   "-r", toString cfg.a2dp_rate, "-p", toString cfg.a2dp_period,
   "-n", toString cfg.a2dp_nperiods, "-c", toString cfg.a2dp_channels]

/-- argv built by `spawn_sco_for`. -/
def sco_argv (cfg : jb_config_t) (mac : String) : List String :=
  ["alsa_in", "-j", "bt_sco_" ++ mac, "-d", sco_dev mac,
   "-r", toString cfg.sco_rate, "-p", toString cfg.sco_period,
   "-n", toString cfg.sco_nperiods, "-c", toString cfg.sco_channels]

/-- `spawn_bridge`: on fork success the parent joins the argv with spaces and
records the child; on fork failure the table is untouched. -/
def spawn_bridge (forkPid : Option Nat) (name : String) (argv : List String)
    (tbl : ProcessTable) : Option Nat × ProcessTable :=
  match forkPid with
  | none => (none, tbl)
  | some p => (some p, add_child p name (joinArgs argv) tbl)

/-- Common body of `spawn_a2dp_sink_for` / `spawn_a2dp_source_for` /
`spawn_sco_for`: skip if a bridge for the MAC is already registered, skip if
the ALSA probe fails, otherwise spawn and record the child. -/
def spawn_role_for (job dev : String) (stream : StreamDir) (argv : List String)
    (env : Env) (mac : String) (tbl : ProcessTable) : ProcessTable :=
  if is_bridge_running_for_mac mac tbl then tbl
  else if env.avail dev stream then (spawn_bridge env.forkPid job argv tbl).2
  else tbl

/-- `spawn_a2dp_sink_for`: job `bt_in_<mac>`, capture-direction probe,
`alsa_in` with the A2DP parameters of the current config. -/
def spawn_a2dp_sink_for (cfg : jb_config_t) (env : Env) (mac : String)
    (tbl : ProcessTable) : ProcessTable :=
  spawn_role_for ("bt_in_" ++ mac) (a2dp_dev mac) StreamDir.capture
    (a2dp_sink_argv cfg mac) env mac tbl

/-- `spawn_a2dp_source_for`: job `bt_out_<mac>`, playback-direction probe,
`alsa_out` with the A2DP parameters of the current config. -/
def spawn_a2dp_source_for (cfg : jb_config_t) (env : Env) (mac : String)
    (tbl : ProcessTable) : ProcessTable :=
  spawn_role_for ("bt_out_" ++ mac) (a2dp_dev mac) StreamDir.playback
    (a2dp_source_argv cfg mac) env mac tbl

/-- `spawn_sco_for`: job `bt_sco_<mac>`, capture-direction probe, `alsa_in`
with the SCO parameters of the current config. -/
def spawn_sco_for (cfg : jb_config_t) (env : Env) (mac : String)
    (tbl : ProcessTable) : ProcessTable :=
  spawn_role_for ("bt_sco_" ++ mac) (sco_dev mac) StreamDir.capture
    (sco_argv cfg mac) env mac tbl

/-- `run_jack_autoconnect`: fork the helper and, on success, register it in
the process table via `add_child`. -/
def run_jack_autoconnect (env : Env) (tbl : ProcessTable) : ProcessTable :=
  match env.autoPid with
  | none => tbl
  | some p =>
    add_child p "jack-autoconnect" "/usr/lib/jack-bridge/jack-autoconnect" tbl

/-- The bridge role chosen by `on_bluealsa_pcm_added`. -/
inductive Role
  | a2dpSink
  | a2dpSource
  | sco
  deriving Repr, DecidableEq

/-- `some s` contains `sub` (C `profile && strrstr(profile, sub)`). -/
def optContains (o : Option String) (sub : String) : Bool :=
  match o with
  | none => false
  | some s => strContains s sub

/-- The property-based decision block of `on_bluealsa_pcm_added`: first the
`a2dp` branch (direction `source` → sink bridge, `sink` → source bridge,
anything else → sink bridge), then the `sco`/`hfp`/`hsp` check on Profile or
Type; `none` when no specific spawn was used. -/
def specificRole (p : PcmProps) : Option Role :=
  if optContains p.profile "a2dp" then
    if p.direction = some "source" then some Role.a2dpSink
    else if p.direction = some "sink" then some Role.a2dpSource
    else some Role.a2dpSink
  else if (optContains p.profile "sco" || optContains p.profile "hfp"
            || optContains p.profile "hsp")
          || (optContains p.ptype "sco" || optContains p.ptype "hfp"
            || optContains p.ptype "hsp") then
    some Role.sco
  else none

/-- The fallback heuristic of `on_bluealsa_pcm_added`: `"sco"` or `"SCO"` in
the object path means telephony, otherwise the A2DP sink bridge. -/
def fallbackRole (path : String) : Role :=
  if strContains path "sco" || strContains path "SCO" then Role.sco
  else Role.a2dpSink

/-- Overall role decision: the property-based cases when the query succeeded
and matched, the path heuristic otherwise. -/
def chooseRole (query : Option PcmProps) (path : String) : Role :=
  match query with
  | some p =>
    match specificRole p with
    | some r => r
    | none => fallbackRole path
  | none => fallbackRole path

/-- Drop everything up to and including the first occurrence of `pat`
(C `strstr` followed by skipping the pattern). `none` if `pat` is absent. -/
def afterFirst (pat : List Char) : List Char → Option (List Char)
  | [] => if pat.isEmpty then some [] else none
  | c :: rest =>
    if pat.isPrefixOf (c :: rest) then some ((c :: rest).drop pat.length)
    else afterFirst pat rest

/-- The segment after the last `'/'` (C `strrchr(path, '/')` then `+1`);
`none` when the path holds no slash. -/
def lastSegment (l : List Char) : Option (List Char) :=
  if l.contains '/' then some ((l.reverse.takeWhile (fun c => c ≠ '/')).reverse)
  else none

/-- Replace underscores by colons (the sanitize loops in the source). -/
def sanitizeMac (l : List Char) : List Char :=
  l.map (fun c => if c = '_' then ':' else c)

/-- `extract_mac_from_object_path`: take the segment after `/dev_` up to the
next slash, or else the last path segment, with `_` mapped to `:`. -/
def extract_mac_from_object_path (path : String) : Option String :=
  match afterFirst "/dev_".data path.data with
  | some rest => some (String.mk (sanitizeMac (rest.takeWhile (fun c => c ≠ '/'))))
  | none =>
    match lastSegment path.data with
    | none => none
    | some seg => some (String.mk (sanitizeMac seg))

/-- `on_bluealsa_pcm_added`: extract the MAC, bail out on an existing bridge
for it, spawn according to the decided role, then fork the autoconnect
helper (which is registered in the table as well). -/
def on_bluealsa_pcm_added (cfg : jb_config_t) (env : Env) (path : String)
    (tbl : ProcessTable) : ProcessTable :=
  match extract_mac_from_object_path path with
  | none => tbl
  | some mac =>
    if is_bridge_running_for_mac mac tbl then tbl
    else
      let tbl1 :=
        match chooseRole env.query path with
        | Role.a2dpSink => spawn_a2dp_sink_for cfg env mac tbl
        | Role.a2dpSource => spawn_a2dp_source_for cfg env mac tbl
        | Role.sco => spawn_sco_for cfg env mac tbl
      run_jack_autoconnect env tbl1

/-- Whether the child (which exits `t` seconds after SIGTERM, `none` = never)
has been observed exited by `waitpid` at elapsed time `w`. -/
def exitedBy (exitsAt : Option Nat) (w : Nat) : Bool :=
  match exitsAt with
  | none => false
  | some t => t ≤ w

/-- The `while (waitpid(...) == 0 && waited < timeout) { sleep(1); waited++ }`
loop of `terminate_child_graceful`: returns the final `waited`. -/
def waitLoop (exitsAt : Option Nat) : Nat → Nat → Nat
  | waited, 0 => waited
  | waited, r + 1 =>
    if exitedBy exitsAt waited then waited else waitLoop exitsAt (waited + 1) r

/-- `terminate_child_graceful` for a child exiting `exitsAt` seconds after the
SIGTERM: `none` when the child exited within the grace period (no SIGKILL),
`some w` when SIGKILL was issued at elapsed time `w`. -/
def terminate_child_graceful (exitsAt : Option Nat) (timeout : Nat) : Option Nat :=
  let w := waitLoop exitsAt 0 timeout
  if exitedBy exitsAt w then none else some w

/-- `on_bluealsa_pcm_removed`: extract the MAC and, for every child whose job
name contains it, terminate it (graceful, then forceful, with the configured
grace period) and remove it from the table.  Returns the list of
`(pid, SIGKILL time)` termination outcomes and the new table.  `exits` gives
each pid's exit delay after SIGTERM. -/
def on_bluealsa_pcm_removed (cfg : jb_config_t) (exits : Nat → Option Nat)
    (path : String) (tbl : ProcessTable) :
    List (Nat × Option Nat) × ProcessTable :=
  match extract_mac_from_object_path path with
  | none => ([], tbl)
  | some mac =>
    (tbl.filterMap (fun c =>
        if strContains c.name mac then
          some (c.pid, terminate_child_graceful (exits c.pid) cfg.child_term_timeout.toNat)
        else none),
     tbl.filter (fun c => ¬ strContains c.name mac))

/-- One reaped pid inside the `handle_sigchld` loop: if a record exists and
its restart count is below 1, re-parse the stored command line, spawn a new
child with the same job name, transfer restart count + 1 to the new record
on success, and remove the old record regardless; otherwise just remove the
record. -/
def reap_pid (forkPid : Option Nat) (pid : Nat) (tbl : ProcessTable) : ProcessTable :=
  match lookupChild pid tbl with
  | none => removeChild pid tbl
  | some c =>
    if c.restart_count < 1 then
      match spawn_bridge forkPid c.name (splitWs c.cmdline) tbl with
      | (some newpid, tbl1) =>
        removeChild pid (setRestart newpid (c.restart_count + 1) tbl1)
      | (none, tbl1) => removeChild pid tbl1
    else removeChild pid tbl

/-- The shutdown loop in `main`: gracefully-then-forcibly terminate every
supervised child with the configured grace period. -/
def shutdown_all (cfg : jb_config_t) (exits : Nat → Option Nat)
    (tbl : ProcessTable) : List (Nat × Option Nat) :=
  tbl.map (fun c =>
    (c.pid, terminate_child_graceful (exits c.pid) cfg.child_term_timeout.toNat))

/-! ## Shared lemmas about the string and table helpers -/

theorem strContains_iff {hay sub : String} :
    strContains hay sub = true ↔ sub.data <:+: hay.data := by
  simp [strContains]

theorem strContains_self (s : String) : strContains s s = true :=
  strContains_iff.mpr List.infix_rfl

theorem strContains_append_right (a b : String) : strContains (a ++ b) b = true := by
  refine strContains_iff.mpr ?_
  rw [String.data_append]
  exact (List.suffix_append a.data b.data).isInfix

theorem strContains_mono {t s s' : String} (hss : s'.data <:+: s.data)
    (h : strContains t s = true) : strContains t s' = true :=
  strContains_iff.mpr (hss.trans (strContains_iff.mp h))

theorem strContains_of_append {t a b : String}
    (h : strContains t (a ++ b) = true) : strContains t b = true :=
  strContains_mono (by rw [String.data_append]; exact (List.suffix_append _ _).isInfix) h

theorem strContains_of_append_left {t a b : String}
    (h : strContains t (a ++ b) = true) : strContains t a = true :=
  strContains_mono (by rw [String.data_append]; exact (List.prefix_append _ _).isInfix) h

theorem autoconnect_no_bt_in (mac : String) :
    strContains "jack-autoconnect" ("bt_in_" ++ mac) = false := by
  by_contra h
  have h' : strContains "jack-autoconnect" ("bt_in_" ++ mac) = true := by
    cases hx : strContains "jack-autoconnect" ("bt_in_" ++ mac) with
    | false => exact absurd hx h
    | true => rfl
  exact absurd (strContains_of_append_left h') (by decide)

theorem not_running_iff {mac : String} {tbl : ProcessTable} :
    is_bridge_running_for_mac mac tbl = false ↔
      ∀ c ∈ tbl, strContains c.name mac = false := by
  simp [is_bridge_running_for_mac]

theorem macCount_eq_zero {mac : String} {tbl : ProcessTable}
    (h : ∀ c ∈ tbl, strContains c.name mac = false) : macCount mac tbl = 0 := by
  simp only [macCount, List.countP_eq_zero]
  intro c hc
  simp [h c hc]

/-- Generic skip behavior of the three spawn functions. -/
theorem spawn_role_for_skip {job dev : String} {st : StreamDir} {argv : List String}
    {env : Env} {mac : String} {tbl : ProcessTable}
    (h : is_bridge_running_for_mac mac tbl = true) :
    spawn_role_for job dev st argv env mac tbl = tbl := by
  simp [spawn_role_for, h]

/-- Generic success behavior of the three spawn functions. -/
theorem spawn_role_for_adds {job dev : String} {st : StreamDir} {argv : List String}
    {env : Env} {mac : String} {p : Nat} {tbl : ProcessTable}
    (hrun : is_bridge_running_for_mac mac tbl = false)
    (hav : env.avail dev st = true) (hp : env.forkPid = some p) :
    spawn_role_for job dev st argv env mac tbl = add_child p job (joinArgs argv) tbl := by
  simp [spawn_role_for, hrun, hav, hp, spawn_bridge]

/-! ## C7: graceful-then-forceful termination -/

theorem waitLoop_none (w r : Nat) : waitLoop none w r = w + r := by
  induction r generalizing w with
  | zero => simp [waitLoop]
  | succ n ih => simp [waitLoop, exitedBy, ih, Nat.add_comm, Nat.add_left_comm, Nat.add_assoc]

theorem waitLoop_some {t w : Nat} (r : Nat) (hw : w ≤ t) :
    waitLoop (some t) w r = min t (w + r) := by
  induction r generalizing w with
  | zero => simpa [waitLoop] using (Nat.min_eq_right hw).symm
  | succ n ih =>
    by_cases hex : t ≤ w
    · have hwt : w = t := Nat.le_antisymm hw hex
      simp [waitLoop, exitedBy, hex, hwt, Nat.min_eq_left (Nat.le_add_right t (n + 1))]
    · have hw1 : w + 1 ≤ t := Nat.lt_of_not_le hex
      simp only [waitLoop, exitedBy, decide_eq_true_eq, if_neg hex, ih hw1]
      omega

/-- C7.  Graceful-then-forceful shutdown: `terminate_child_graceful` first
sends SIGTERM, then polls once per second for at most `timeout` seconds.  A
child that exits within the grace period (`t ≤ timeout` seconds after the
SIGTERM) is never sent SIGKILL; a child that has not exited when the grace
period elapses is sent SIGKILL exactly when the grace period elapses
(`timeout` seconds in), not before. -/
theorem terminate_graceful_then_forceful (timeout : Nat) (exitsAt : Option Nat) :
    (∀ t, exitsAt = some t → t ≤ timeout →
        terminate_child_graceful exitsAt timeout = none)
    ∧ ((∀ t, exitsAt = some t → timeout < t) →
        terminate_child_graceful exitsAt timeout = some timeout) := by
  constructor
  · intro t ht hle
    subst ht
    have hw : waitLoop (some t) 0 timeout = t := by
      rw [waitLoop_some timeout (Nat.zero_le t), Nat.zero_add, Nat.min_eq_left hle]
    simp [terminate_child_graceful, hw, exitedBy]
  · intro hgt
    match exitsAt with
    | none => simp [terminate_child_graceful, waitLoop_none, exitedBy]
    | some t =>
      have hlt : timeout < t := hgt t rfl
      have hw : waitLoop (some t) 0 timeout = timeout := by
        rw [waitLoop_some timeout (Nat.zero_le t), Nat.zero_add,
          Nat.min_eq_right (Nat.le_of_lt hlt)]
      simp only [terminate_child_graceful, hw, exitedBy, decide_eq_true_eq]
      rw [if_neg (by omega)]

theorem terminate_graceful_then_forceful_witness :
    terminate_child_graceful (some 2) 4 = none
    ∧ terminate_child_graceful none 4 = some 4 :=
  ⟨(terminate_graceful_then_forceful 4 (some 2)).1 2 rfl (by decide),
   (terminate_graceful_then_forceful 4 none).2 (fun t h => nomatch h)⟩

/-! ## C3: reload is all-or-nothing only at the file-open level -/

/-- C3 counterexample.  Start from the built-in defaults, reload from a file
setting `A2DP_PERIOD=512` (so 512 is a previously valid value of a
previously valid key), then reload from a file whose line applies the
unparsable value `x512` to that key: the prior valid value 512 is NOT
preserved — `atoi` turns it into 0.  Reloading from a readable file that
does not mention the key likewise resets it to the default 1024 instead of
keeping 512.  So a malformed-but-openable file does not leave the prior
in-memory config unchanged. -/
theorem reload_not_field_atomic_ce :
    (handle_reload (some ["A2DP_PERIOD=512"]) load_default_config).a2dp_period = 512
    ∧ (handle_reload (some ["A2DP_PERIOD=x512"])
        (handle_reload (some ["A2DP_PERIOD=512"]) load_default_config)).a2dp_period = 0
    ∧ (handle_reload (some ["# comment only"])
        (handle_reload (some ["A2DP_PERIOD=512"]) load_default_config)).a2dp_period = 1024 := by
  refine ⟨by decide, by decide, by decide⟩

/-- C3 amended.  Reload is all-or-nothing at the file-OPEN level only: a
missing/unopenable config file (`none`) leaves the prior in-memory config
fully unchanged, while any readable file replaces the config wholesale —
the result is built from the hard-coded defaults overlaid with the file's
lines and is entirely independent of the prior config (so previously set
keys revert to defaults or to whatever `atoi` makes of the new values). -/
theorem reload_all_or_nothing_at_open (cur cur' : jb_config_t) (lines : List String) :
    handle_reload none cur = cur
    ∧ handle_reload (some lines) cur = handle_reload (some lines) cur'
    ∧ handle_reload (some lines) cur = lines.foldl processLine load_default_config :=
  ⟨rfl, rfl, rfl⟩

/-! ## C1 / C8: duplicate prevention at launch -/

theorem macCount_add_child {mac name : String} {p : Nat} {cmd : String}
    {tbl : ProcessTable} (hname : strContains name mac = true)
    (h0 : ∀ c ∈ tbl, strContains c.name mac = false) :
    macCount mac (add_child p name cmd tbl) = 1 := by
  simp only [macCount, add_child]
  rw [List.countP_cons_of_pos _ _ (by simpa using hname), List.countP_eq_zero.mpr]
  intro c hc
  simp [h0 c (List.mem_of_mem_filter hc)]

theorem is_bridge_running_add_child {mac name : String} {p : Nat} {cmd : String}
    {tbl : ProcessTable} (hname : strContains name mac = true) :
    is_bridge_running_for_mac mac (add_child p name cmd tbl) = true := by
  simp [is_bridge_running_for_mac, add_child, hname]

/-- Core of the idempotent-launch argument, shared by the three roles: after
a first successful spawn for `mac`, any further spawn attempt for `mac`
(same or different role) finds the entry and leaves the table unchanged,
and the table holds exactly one entry whose name contains `mac`. -/
theorem spawn_role_for_idem
    {job dev job2 dev2 : String} {st st2 : StreamDir} {argv argv2 : List String}
    {env1 env2 : Env} {mac : String} {p : Nat} {tbl : ProcessTable}
    (hjob : strContains job mac = true)
    (h0 : ∀ c ∈ tbl, strContains c.name mac = false)
    (hav : env1.avail dev st = true) (hp : env1.forkPid = some p) :
    spawn_role_for job2 dev2 st2 argv2 env2 mac
        (spawn_role_for job dev st argv env1 mac tbl)
      = spawn_role_for job dev st argv env1 mac tbl
    ∧ macCount mac (spawn_role_for job dev st argv env1 mac tbl) = 1 := by
  have hrun : is_bridge_running_for_mac mac tbl = false := not_running_iff.mpr h0
  have ht1 : spawn_role_for job dev st argv env1 mac tbl
      = add_child p job (joinArgs argv) tbl := spawn_role_for_adds hrun hav hp
  rw [ht1]
  exact ⟨spawn_role_for_skip (is_bridge_running_add_child hjob),
    macCount_add_child hjob h0⟩

/-- C1.  Idempotent launch: starting from a table with no entry for the
device, a successful launch (probe succeeds, fork succeeds) leaves exactly
one SupervisedChild entry whose job name contains the MAC, and a second
launch call for the same device/role — under any environment — finds that
entry and returns without changing the table.  Stated for all three roles. -/
theorem launch_idempotent (cfg : jb_config_t) (env1 env2 : Env) (mac : String)
    (p : Nat) (tbl : ProcessTable)
    (h0 : ∀ c ∈ tbl, strContains c.name mac = false)
    (hav : ∀ d s, env1.avail d s = true)
    (hp : env1.forkPid = some p) :
    (spawn_a2dp_sink_for cfg env2 mac (spawn_a2dp_sink_for cfg env1 mac tbl)
        = spawn_a2dp_sink_for cfg env1 mac tbl
      ∧ macCount mac (spawn_a2dp_sink_for cfg env1 mac tbl) = 1)
    ∧ (spawn_a2dp_source_for cfg env2 mac (spawn_a2dp_source_for cfg env1 mac tbl)
        = spawn_a2dp_source_for cfg env1 mac tbl
      ∧ macCount mac (spawn_a2dp_source_for cfg env1 mac tbl) = 1)
    ∧ (spawn_sco_for cfg env2 mac (spawn_sco_for cfg env1 mac tbl)
        = spawn_sco_for cfg env1 mac tbl
      ∧ macCount mac (spawn_sco_for cfg env1 mac tbl) = 1) :=
  ⟨spawn_role_for_idem (strContains_append_right "bt_in_" mac) h0 (hav _ _) hp,
   spawn_role_for_idem (strContains_append_right "bt_out_" mac) h0 (hav _ _) hp,
   spawn_role_for_idem (strContains_append_right "bt_sco_" mac) h0 (hav _ _) hp⟩

theorem launch_idempotent_witness :
    (spawn_a2dp_sink_for load_default_config ⟨none, fun _ _ => true, some 43, none⟩
        "AA:BB:CC:DD:EE:FF"
        (spawn_a2dp_sink_for load_default_config ⟨none, fun _ _ => true, some 42, none⟩
          "AA:BB:CC:DD:EE:FF" [])
      = spawn_a2dp_sink_for load_default_config ⟨none, fun _ _ => true, some 42, none⟩
          "AA:BB:CC:DD:EE:FF" []
    ∧ macCount "AA:BB:CC:DD:EE:FF"
        (spawn_a2dp_sink_for load_default_config ⟨none, fun _ _ => true, some 42, none⟩
          "AA:BB:CC:DD:EE:FF" []) = 1) :=
  (launch_idempotent load_default_config ⟨none, fun _ _ => true, some 42, none⟩
    ⟨none, fun _ _ => true, some 43, none⟩ "AA:BB:CC:DD:EE:FF" 42 []
    (fun _ hc => nomatch hc) (fun _ _ => rfl) rfl).1

/-- C8 counterexample.  The duplicate-prevention scan matches on the MAC
substring alone, regardless of role: with an A2DP sink bridge entry
`bt_in_AA:BB:CC:DD:EE:FF` already in the table, launching the *different*
A2DP source role for the same device is skipped, so the table keeps exactly
one entry for the device — not the two entries (one per device × role) the
claim asserts. -/
theorem one_bridge_per_device_ce :
    spawn_a2dp_source_for load_default_config ⟨none, fun _ _ => true, some 101, none⟩
        "AA:BB:CC:DD:EE:FF"
        [⟨100, "bt_in_AA:BB:CC:DD:EE:FF", "alsa_in -j bt_in_AA:BB:CC:DD:EE:FF", 0⟩]
      = [⟨100, "bt_in_AA:BB:CC:DD:EE:FF", "alsa_in -j bt_in_AA:BB:CC:DD:EE:FF", 0⟩]
    ∧ macCount "AA:BB:CC:DD:EE:FF"
        (spawn_a2dp_source_for load_default_config ⟨none, fun _ _ => true, some 101, none⟩
          "AA:BB:CC:DD:EE:FF"
          [⟨100, "bt_in_AA:BB:CC:DD:EE:FF", "alsa_in -j bt_in_AA:BB:CC:DD:EE:FF", 0⟩]) = 1 :=
  ⟨by decide, by decide⟩

/-- C8 amended.  At most one SupervisedChild bridge entry exists per device
across ALL roles: the scan of existing entries matches the MAC substring
irrespective of role, so any launch for a device that already holds an
entry (of any role) is skipped and the table is unchanged, and the
"at most one entry containing the MAC" invariant is preserved by every
launch. -/
theorem one_bridge_per_device (cfg : jb_config_t) (env : Env) (mac : String)
    (tbl : ProcessTable) :
    (is_bridge_running_for_mac mac tbl = true →
      spawn_a2dp_sink_for cfg env mac tbl = tbl
      ∧ spawn_a2dp_source_for cfg env mac tbl = tbl
      ∧ spawn_sco_for cfg env mac tbl = tbl)
    ∧ (macCount mac tbl ≤ 1 →
      macCount mac (spawn_a2dp_sink_for cfg env mac tbl) ≤ 1
      ∧ macCount mac (spawn_a2dp_source_for cfg env mac tbl) ≤ 1
      ∧ macCount mac (spawn_sco_for cfg env mac tbl) ≤ 1) := by
  have key : ∀ (job dev : String) (st : StreamDir) (argv : List String),
      strContains job mac = true → macCount mac tbl ≤ 1 →
      macCount mac (spawn_role_for job dev st argv env mac tbl) ≤ 1 := by
    intro job dev st argv hjob hle
    cases hrun : is_bridge_running_for_mac mac tbl with
    | true => rw [spawn_role_for_skip hrun]; exact hle
    | false =>
      have h0 := not_running_iff.mp hrun
      simp only [spawn_role_for, hrun, if_false, Bool.false_eq_true]
      cases hav : env.avail dev st with
      | false => simpa using hle
      | true =>
        cases hp : env.forkPid with
        | none => simpa [spawn_bridge] using hle
        | some p =>
          simp only [if_true, spawn_bridge]
          rw [macCount_add_child hjob h0]
  refine ⟨fun hrun => ⟨spawn_role_for_skip hrun, spawn_role_for_skip hrun,
      spawn_role_for_skip hrun⟩, fun hle => ?_⟩
  exact ⟨key _ _ _ _ (strContains_append_right "bt_in_" mac) hle,
    key _ _ _ _ (strContains_append_right "bt_out_" mac) hle,
    key _ _ _ _ (strContains_append_right "bt_sco_" mac) hle⟩

theorem one_bridge_per_device_witness :
    spawn_a2dp_sink_for load_default_config ⟨none, fun _ _ => true, some 9, none⟩
        "AA:BB:CC:DD:EE:FF"
        [⟨3, "bt_sco_AA:BB:CC:DD:EE:FF", "", 0⟩]
      = [⟨3, "bt_sco_AA:BB:CC:DD:EE:FF", "", 0⟩] :=
  ((one_bridge_per_device load_default_config ⟨none, fun _ _ => true, some 9, none⟩
    "AA:BB:CC:DD:EE:FF" [⟨3, "bt_sco_AA:BB:CC:DD:EE:FF", "", 0⟩]).1 (by decide)).1

/-! ## C5: role decision -/

/-- C5.  The PCM-added role decision: with a successful property query,
profile containing `a2dp` with direction `source` picks the A2DP sink
bridge, direction `sink` picks the A2DP source bridge, and an absent
direction defaults to the sink bridge; a profile (or Type) containing
`sco`/`hfp`/`hsp` (when the profile is not an a2dp one) picks the telephony
bridge; and when the query failed entirely the path heuristic applies —
`sco` in the object path (in either case) means telephony, otherwise the
A2DP sink bridge. -/
theorem role_decision (p : PcmProps) (path : String) :
    (optContains p.profile "a2dp" = true → p.direction = some "source" →
      chooseRole (some p) path = Role.a2dpSink)
    ∧ (optContains p.profile "a2dp" = true → p.direction = some "sink" →
      chooseRole (some p) path = Role.a2dpSource)
    ∧ (optContains p.profile "a2dp" = true → p.direction = none →
      chooseRole (some p) path = Role.a2dpSink)
    ∧ (optContains p.profile "a2dp" = false →
      (optContains p.profile "sco" || optContains p.profile "hfp"
        || optContains p.profile "hsp" || optContains p.ptype "sco"
        || optContains p.ptype "hfp" || optContains p.ptype "hsp") = true →
      chooseRole (some p) path = Role.sco)
    ∧ (strContains path "sco" = true → chooseRole none path = Role.sco)
    ∧ (strContains path "sco" = false → strContains path "SCO" = false →
      chooseRole none path = Role.a2dpSink) := by
  refine ⟨?_, ?_, ?_, ?_, ?_, ?_⟩
  · intro hprof hdir
    simp [chooseRole, specificRole, hprof, hdir]
  · intro hprof hdir
    simp [chooseRole, specificRole, hprof, hdir]
  · intro hprof hdir
    simp [chooseRole, specificRole, hprof, hdir]
  · intro hprof hsco
    simp only [chooseRole, specificRole, hprof, Bool.false_eq_true, if_false]
    rw [if_pos]
    rcases Bool.or_eq_true_iff.mp hsco with h | h
    · rcases Bool.or_eq_true_iff.mp h with h | h
      · rcases Bool.or_eq_true_iff.mp h with h | h
        · rcases Bool.or_eq_true_iff.mp h with h | h
          · rcases Bool.or_eq_true_iff.mp h with h | h <;> simp [h]
          · simp [h]
        · simp [h]
      · simp [h]
    · simp [h]
  · intro hpath
    simp [chooseRole, fallbackRole, hpath]
  · intro h1 h2
    simp [chooseRole, fallbackRole, h1, h2]

theorem role_decision_witness :
    chooseRole (some ⟨some "a2dp", some "source", none⟩) "/p" = Role.a2dpSink
    ∧ chooseRole (some ⟨some "a2dp", some "sink", none⟩) "/p" = Role.a2dpSource
    ∧ chooseRole (some ⟨some "a2dp", none, none⟩) "/p" = Role.a2dpSink
    ∧ chooseRole (some ⟨some "hfp-ag", none, none⟩) "/p" = Role.sco
    ∧ chooseRole none "/org/bluealsa/dev_X/sco" = Role.sco
    ∧ chooseRole none "/org/bluealsa/dev_X/fd1" = Role.a2dpSink :=
  ⟨(role_decision ⟨some "a2dp", some "source", none⟩ "/p").1 (by decide) rfl,
   (role_decision ⟨some "a2dp", some "sink", none⟩ "/p").2.1 (by decide) rfl,
   (role_decision ⟨some "a2dp", none, none⟩ "/p").2.2.1 (by decide) rfl,
   (role_decision ⟨some "hfp-ag", none, none⟩ "/p").2.2.2.1 (by decide) (by decide),
   (role_decision ⟨none, none, none⟩ "/org/bluealsa/dev_X/sco").2.2.2.2.1 (by decide),
   (role_decision ⟨none, none, none⟩ "/org/bluealsa/dev_X/fd1").2.2.2.2.2
     (by decide) (by decide)⟩

/-! ## C2: restart-once policy -/

theorem setRestart_add_child (q n : Nat) (name cmd : String) (tbl : ProcessTable) :
    setRestart q n (add_child q name cmd tbl) =
      { pid := q, name := name, cmdline := cmd, restart_count := n } ::
        tbl.filter (fun c => c.pid ≠ q) := by
  simp only [setRestart, add_child, List.map_cons, if_pos]
  congr 1
  have h : ∀ a ∈ tbl.filter (fun c => c.pid ≠ q),
      (fun c => if c.pid = q then { c with restart_count := n } else c) a = id a := by
    intro a ha
    have : a.pid ≠ q := by simpa using (List.mem_filter.mp ha).2
    simp [this]
  rw [List.map_congr_left h, List.map_id]

/-- C2.  Restart-once: for a reaped pid whose record has restart count 0, a
restart is attempted by re-parsing the stored command line; on fork success
the new record carries the old count + 1 = 1 and the old record is removed;
on fork failure the old record is still removed.  For a record whose
restart count is already 1 (or more) no restart is attempted — the record
is simply removed — and in particular a second exit of a successfully
restarted child only removes it, so every logical bridge is restarted at
most once automatically. -/
theorem restart_once (tbl : ProcessTable) (pid newpid : Nat) (c : child_t)
    (hfind : lookupChild pid tbl = some c) :
    (c.restart_count = 0 → newpid ≠ pid →
      reap_pid (some newpid) pid tbl =
        { pid := newpid, name := c.name,
          cmdline := joinArgs (splitWs c.cmdline), restart_count := 1 } ::
          removeChild pid (removeChild newpid tbl))
    ∧ (c.restart_count = 0 → reap_pid none pid tbl = removeChild pid tbl)
    ∧ (1 ≤ c.restart_count → ∀ fp, reap_pid fp pid tbl = removeChild pid tbl)
    ∧ (c.restart_count = 0 → newpid ≠ pid → ∀ fp,
      reap_pid fp newpid (reap_pid (some newpid) pid tbl) =
        removeChild newpid (reap_pid (some newpid) pid tbl)) := by
  have h1 : c.restart_count = 0 → newpid ≠ pid →
      reap_pid (some newpid) pid tbl =
        { pid := newpid, name := c.name,
          cmdline := joinArgs (splitWs c.cmdline), restart_count := 1 } ::
          removeChild pid (removeChild newpid tbl) := by
    intro hc0 hne
    simp only [reap_pid, hfind, spawn_bridge]
    rw [if_pos (by omega), hc0, Nat.zero_add, setRestart_add_child]
    simp only [removeChild, List.filter_cons]
    rw [if_pos (by simpa using hne)]
  refine ⟨h1, ?_, ?_, ?_⟩
  · intro hc0
    simp only [reap_pid, hfind, spawn_bridge]
    rw [if_pos (by omega)]
  · intro hge fp
    simp only [reap_pid, hfind]
    rw [if_neg (by omega)]
  · intro hc0 hne fp
    rw [h1 hc0 hne]
    simp only [reap_pid, lookupChild]
    rw [List.find?_cons_of_pos _ (by simp)]
    simp

theorem restart_once_witness :
    reap_pid (some 11) 10 [⟨10, "bt_in_M", "alsa_in -j bt_in_M", 0⟩] =
      [⟨11, "bt_in_M", "alsa_in -j bt_in_M", 1⟩] := by
  rw [(restart_once [⟨10, "bt_in_M", "alsa_in -j bt_in_M", 0⟩] 10 11
    ⟨10, "bt_in_M", "alsa_in -j bt_in_M", 0⟩ (by decide)).1 rfl (by decide)]
  decide

/-! ## C4: removal cleans up -/

/-- C4.  A device-removed event for a path whose MAC extracts to `mac`
terminates — gracefully within the configured grace period, then forcibly —
every supervised child whose job name contains `mac`, all such entries are
removed from the table, entries for other devices are kept, and afterwards
no entry whose name contains `mac` remains. -/
theorem removal_cleans_up (cfg : jb_config_t) (exits : Nat → Option Nat)
    (path mac : String) (tbl : ProcessTable)
    (hmac : extract_mac_from_object_path path = some mac) :
    (∀ c ∈ tbl, strContains c.name mac = true →
      (c.pid, terminate_child_graceful (exits c.pid) cfg.child_term_timeout.toNat)
        ∈ (on_bluealsa_pcm_removed cfg exits path tbl).1)
    ∧ (∀ c ∈ (on_bluealsa_pcm_removed cfg exits path tbl).2,
        strContains c.name mac = false)
    ∧ (∀ c ∈ tbl, strContains c.name mac = false →
        c ∈ (on_bluealsa_pcm_removed cfg exits path tbl).2)
    ∧ macCount mac (on_bluealsa_pcm_removed cfg exits path tbl).2 = 0 := by
  simp only [on_bluealsa_pcm_removed, hmac]
  have h2 : ∀ c ∈ tbl.filter (fun c => ¬ strContains c.name mac),
      strContains c.name mac = false := by
    intro c hc
    simpa using (List.mem_filter.mp hc).2
  refine ⟨?_, h2, ?_, macCount_eq_zero h2⟩
  · intro c hc hname
    simp only [List.mem_filterMap]
    exact ⟨c, hc, by simp [hname]⟩
  · intro c hc hname
    exact List.mem_filter.mpr ⟨hc, by simp [hname]⟩

theorem removal_cleans_up_witness :
    ((1 : Nat), terminate_child_graceful (some 0) 4)
      ∈ (on_bluealsa_pcm_removed load_default_config (fun _ => some 0)
          "/org/bluealsa/hci0/dev_AA_BB/fd0"
          [⟨1, "bt_in_AA:BB", "x", 0⟩, ⟨2, "bt_in_CC:DD", "y", 0⟩]).1
    ∧ macCount "AA:BB"
        (on_bluealsa_pcm_removed load_default_config (fun _ => some 0)
          "/org/bluealsa/hci0/dev_AA_BB/fd0"
          [⟨1, "bt_in_AA:BB", "x", 0⟩, ⟨2, "bt_in_CC:DD", "y", 0⟩]).2 = 0 := by
  have h := removal_cleans_up load_default_config (fun _ => some 0)
    "/org/bluealsa/hci0/dev_AA_BB/fd0" "AA:BB"
    [⟨1, "bt_in_AA:BB", "x", 0⟩, ⟨2, "bt_in_CC:DD", "y", 0⟩] (by decide)
  exact ⟨h.1 ⟨1, "bt_in_AA:BB", "x", 0⟩ (by simp) (by decide), h.2.2.2⟩

/-! ## C6: the A2DP sink launch end to end -/

theorem contains_false_of_append {t a b : String}
    (h : strContains t b = false) : strContains t (a ++ b) = false := by
  cases hx : strContains t (a ++ b) with
  | false => rfl
  | true => exact absurd (strContains_of_append hx) (by simp [h])

/-- C6.  A PCM-added event for a device with profile `a2dp` and direction
`source`, with no existing bridge for the device, a successful ALSA probe
of the capture-direction device string `bluealsa:DEV=<mac>,PROFILE=a2dp`,
and a successful fork, leaves exactly one entry whose job name contains
`bt_in_<mac>` in the table; its command line is `alsa_in` with the job
name, that device string, and the A2DP rate, period, period count and
channel count of the current config.  Moreover, after a config file sets
`A2DP_PERIOD=512`, the sink argv built from the reloaded config uses period
size 512 (position 8, right after the `-p` flag) for any device. -/
theorem a2dp_sink_launch (cfg : jb_config_t) (env : Env) (path mac : String)
    (tbl : ProcessTable) (p : Nat) (props : PcmProps)
    (hmac : extract_mac_from_object_path path = some mac)
    (hq : env.query = some props)
    (hprof : optContains props.profile "a2dp" = true)
    (hdir : props.direction = some "source")
    (h0 : ∀ c ∈ tbl, strContains c.name mac = false)
    (hav : env.avail (a2dp_dev mac) StreamDir.capture = true)
    (hp : env.forkPid = some p)
    (hauto : ∀ q, env.autoPid = some q → q ≠ p) :
    (on_bluealsa_pcm_added cfg env path tbl).filter
        (fun c => strContains c.name ("bt_in_" ++ mac)) =
      [{ pid := p, name := "bt_in_" ++ mac,
         cmdline := joinArgs ["alsa_in", "-j", "bt_in_" ++ mac,
           "-d", "bluealsa:DEV=" ++ mac ++ ",PROFILE=a2dp",
           "-r", toString cfg.a2dp_rate, "-p", toString cfg.a2dp_period,
           "-n", toString cfg.a2dp_nperiods, "-c", toString cfg.a2dp_channels],
         restart_count := 0 }]
    ∧ (∀ (prior : jb_config_t) (mac2 : String),
      (a2dp_sink_argv (handle_reload (some ["A2DP_PERIOD=512"]) prior) mac2)[7]?
          = some "-p"
      ∧ (a2dp_sink_argv (handle_reload (some ["A2DP_PERIOD=512"]) prior) mac2)[8]?
          = some "512") := by
  have hrun : is_bridge_running_for_mac mac tbl = false := not_running_iff.mpr h0
  have hbt : ∀ c ∈ tbl, strContains c.name ("bt_in_" ++ mac) = false :=
    fun c hc => contains_false_of_append (h0 c hc)
  have hrole : chooseRole env.query path = Role.a2dpSink := by
    rw [hq]
    simp [chooseRole, specificRole, hprof, hdir]
  have hspawn : spawn_a2dp_sink_for cfg env mac tbl =
      add_child p ("bt_in_" ++ mac) (joinArgs (a2dp_sink_argv cfg mac)) tbl :=
    spawn_role_for_adds hrun hav hp
  constructor
  · have key : ∀ Y : ProcessTable,
        (∀ c ∈ Y, strContains c.name ("bt_in_" ++ mac) = false) →
        (({ pid := p, name := "bt_in_" ++ mac,
            cmdline := joinArgs (a2dp_sink_argv cfg mac), restart_count := 0 }
            :: Y).filter (fun c => strContains c.name ("bt_in_" ++ mac)))
          = [{ pid := p, name := "bt_in_" ++ mac,
               cmdline := joinArgs (a2dp_sink_argv cfg mac), restart_count := 0 }] := by
      intro Y hY
      rw [List.filter_cons_of_pos (by simpa using strContains_self ("bt_in_" ++ mac)),
        List.filter_eq_nil_iff.mpr (fun c hc => by simp [hY c hc])]
    simp only [on_bluealsa_pcm_added, hmac, hrun, Bool.false_eq_true, if_false, hrole]
    cases hqa : env.autoPid with
    | none =>
      simp only [run_jack_autoconnect, hqa, hspawn, add_child]
      exact key _ (fun c hc => hbt c (List.mem_of_mem_filter hc))
    | some q =>
      have hqp : q ≠ p := hauto q hqa
      simp only [run_jack_autoconnect, hqa, hspawn, add_child]
      rw [List.filter_cons_of_neg (by simp [autoconnect_no_bt_in mac]),
        List.filter_cons_of_pos (by simpa using Ne.symm hqp)]
      exact key _ (fun c hc =>
        hbt c (List.mem_of_mem_filter (List.mem_of_mem_filter hc)))
  · intro prior mac2
    exact ⟨rfl, rfl⟩

theorem a2dp_sink_launch_witness :
    (on_bluealsa_pcm_added load_default_config
        ⟨some ⟨some "a2dp", some "source", none⟩, fun _ _ => true, some 21, some 22⟩
        "/org/bluealsa/hci0/dev_AA_BB_CC_DD_EE_FF/fd0" []).filter
        (fun c => strContains c.name ("bt_in_" ++ "AA:BB:CC:DD:EE:FF")) =
      [{ pid := 21, name := "bt_in_" ++ "AA:BB:CC:DD:EE:FF",
         cmdline := joinArgs ["alsa_in", "-j", "bt_in_" ++ "AA:BB:CC:DD:EE:FF",
           "-d", "bluealsa:DEV=" ++ "AA:BB:CC:DD:EE:FF" ++ ",PROFILE=a2dp",
           "-r", toString load_default_config.a2dp_rate,
           "-p", toString load_default_config.a2dp_period,
           "-n", toString load_default_config.a2dp_nperiods,
           "-c", toString load_default_config.a2dp_channels],
         restart_count := 0 }] :=
  (a2dp_sink_launch load_default_config
    ⟨some ⟨some "a2dp", some "source", none⟩, fun _ _ => true, some 21, some 22⟩
    "/org/bluealsa/hci0/dev_AA_BB_CC_DD_EE_FF/fd0" "AA:BB:CC:DD:EE:FF" [] 21
    ⟨some "a2dp", some "source", none⟩ (by decide) rfl (by decide) rfl
    (fun _ hc => nomatch hc) rfl rfl
    (fun q hq => by injection hq with h; omega)).1

/-! ## C9: the autoconnect helper -/

/-- C9 counterexample.  With the ALSA probe failing, no bridge is launched
for the added PCM, yet the autoconnect helper is still forked — and it is
registered in ProcessTable as a supervised child with restart count 0, so
on its exit the restart-once policy restarts it like any bridge.  This
refutes both "it is not invoked when no bridge was launched" and "it is not
itself tracked in ProcessTable". -/
theorem autoconnect_fire_and_forget_ce :
    on_bluealsa_pcm_added load_default_config ⟨none, fun _ _ => false, some 5, some 7⟩
        "/org/bluealsa/hci0/dev_AA_BB_CC_DD_EE_FF/fd0" []
      = [⟨7, "jack-autoconnect", "/usr/lib/jack-bridge/jack-autoconnect", 0⟩]
    ∧ reap_pid (some 8) 7
        [⟨7, "jack-autoconnect", "/usr/lib/jack-bridge/jack-autoconnect", 0⟩]
      = [⟨8, "jack-autoconnect", "/usr/lib/jack-bridge/jack-autoconnect", 1⟩] :=
  ⟨by decide, by decide⟩

/-- C9 amended.  The autoconnect helper is forked at the end of EVERY
PCM-added handling that extracts a MAC and passes the early duplicate
check — whether or not a bridge was actually launched — and on fork success
it is registered in ProcessTable as a supervised child with restart count 0
(hence subject to the restart-once policy), not left untracked. -/
theorem autoconnect_after_added (cfg : jb_config_t) (env : Env) (path mac : String)
    (tbl : ProcessTable) (q : Nat)
    (hmac : extract_mac_from_object_path path = some mac)
    (hrun : is_bridge_running_for_mac mac tbl = false)
    (hq : env.autoPid = some q) :
    (on_bluealsa_pcm_added cfg env path tbl).head? =
      some ⟨q, "jack-autoconnect", "/usr/lib/jack-bridge/jack-autoconnect", 0⟩ := by
  simp only [on_bluealsa_pcm_added, hmac, hrun, Bool.false_eq_true, if_false]
  cases chooseRole env.query path <;> simp [run_jack_autoconnect, hq, add_child]

theorem autoconnect_after_added_witness :
    (on_bluealsa_pcm_added load_default_config ⟨none, fun _ _ => false, some 5, some 9⟩
        "/org/bluealsa/hci0/dev_AA_BB_CC_DD_EE_FF/fd0" []).head? =
      some ⟨9, "jack-autoconnect", "/usr/lib/jack-bridge/jack-autoconnect", 0⟩ :=
  autoconnect_after_added load_default_config ⟨none, fun _ _ => false, some 5, some 9⟩
    "/org/bluealsa/hci0/dev_AA_BB_CC_DD_EE_FF/fd0" "AA:BB:CC:DD:EE:FF" [] 9
    (by decide) (by decide) rfl

/-! ## C10: unused config fields do not interfere -/

set_option maxHeartbeats 1600000 in
/-- C10.  Noninterference of the unused config fields: two configs that
agree on everything except `max_bridges`, `spawn_delay`, `runtime_user` and
`a2dp_drift_comp` (all four of which ARE recognized by the config parser,
as the last conjunct shows) drive every launch, PCM-added, tear-down and
shutdown operation to identical process tables, identical command lines and
identical termination outcomes — so the number of registered bridges is
never limited by `max_bridges` and no spawn consults `spawn_delay`.  (The
reaper `reap_pid` takes no config at all.) -/
theorem unused_config_noninterference (c1 c2 : jb_config_t)
    (h : (c1.a2dp_rate, c1.a2dp_period, c1.a2dp_nperiods, c1.a2dp_channels,
          c1.sco_rate, c1.sco_period, c1.sco_nperiods, c1.sco_channels,
          c1.child_term_timeout, c1.log_file, c1.pid_file)
        = (c2.a2dp_rate, c2.a2dp_period, c2.a2dp_nperiods, c2.a2dp_channels,
          c2.sco_rate, c2.sco_period, c2.sco_nperiods, c2.sco_channels,
          c2.child_term_timeout, c2.log_file, c2.pid_file)) :
    (∀ env mac tbl,
      spawn_a2dp_sink_for c1 env mac tbl = spawn_a2dp_sink_for c2 env mac tbl
      ∧ spawn_a2dp_source_for c1 env mac tbl = spawn_a2dp_source_for c2 env mac tbl
      ∧ spawn_sco_for c1 env mac tbl = spawn_sco_for c2 env mac tbl)
    ∧ (∀ env path tbl,
      on_bluealsa_pcm_added c1 env path tbl = on_bluealsa_pcm_added c2 env path tbl)
    ∧ (∀ exits path tbl,
      on_bluealsa_pcm_removed c1 exits path tbl = on_bluealsa_pcm_removed c2 exits path tbl)
    ∧ (∀ exits tbl, shutdown_all c1 exits tbl = shutdown_all c2 exits tbl)
    ∧ (∀ cfg : jb_config_t,
      processLine cfg "MAX_BRIDGES=5" = { cfg with max_bridges := 5 }
      ∧ processLine cfg "SPAWN_DELAY=9" = { cfg with spawn_delay := 9 }
      ∧ processLine cfg "RUNTIME_USER=bob" = { cfg with runtime_user := "bob" }
      ∧ processLine cfg "A2DP_DRIFT_COMP=0" = { cfg with a2dp_drift_comp := 0 }) := by
  simp only [Prod.mk.injEq] at h
  obtain ⟨h1, h2, h3, h4, h5, h6, h7, h8, h9, h10, h11⟩ := h
  have hsink : ∀ env mac tbl,
      spawn_a2dp_sink_for c1 env mac tbl = spawn_a2dp_sink_for c2 env mac tbl := by
    intro env mac tbl
    simp [spawn_a2dp_sink_for, a2dp_sink_argv, h1, h2, h3, h4]
  have hsource : ∀ env mac tbl,
      spawn_a2dp_source_for c1 env mac tbl = spawn_a2dp_source_for c2 env mac tbl := by
    intro env mac tbl
    simp [spawn_a2dp_source_for, a2dp_source_argv, h1, h2, h3, h4]
  have hsco : ∀ env mac tbl,
      spawn_sco_for c1 env mac tbl = spawn_sco_for c2 env mac tbl := by
    intro env mac tbl
    simp [spawn_sco_for, sco_argv, h5, h6, h7, h8]
  refine ⟨fun env mac tbl => ⟨hsink env mac tbl, hsource env mac tbl, hsco env mac tbl⟩,
    ?_, ?_, ?_, ?_⟩
  · intro env path tbl
    unfold on_bluealsa_pcm_added
    cases extract_mac_from_object_path path with
    | none => rfl
    | some mac =>
      cases hb : is_bridge_running_for_mac mac tbl with
      | true => simp [hb]
      | false =>
        simp only [hb, Bool.false_eq_true, if_false]
        cases chooseRole env.query path with
        | a2dpSink => rw [hsink env mac tbl]
        | a2dpSource => rw [hsource env mac tbl]
        | sco => rw [hsco env mac tbl]
  · intro exits path tbl
    unfold on_bluealsa_pcm_removed
    cases extract_mac_from_object_path path with
    | none => rfl
    | some mac => simp [h9]
  · intro exits tbl
    simp [shutdown_all, h9]
  · intro cfg
    exact ⟨rfl, rfl, rfl, rfl⟩

theorem unused_config_noninterference_witness :
    spawn_a2dp_sink_for load_default_config ⟨none, fun _ _ => true, some 1, none⟩
        "AA:BB:CC:DD:EE:FF" []
      = spawn_a2dp_sink_for
          { load_default_config with
            max_bridges := 99, spawn_delay := 5,
            runtime_user := "nobody", a2dp_drift_comp := 0 }
          ⟨none, fun _ _ => true, some 1, none⟩ "AA:BB:CC:DD:EE:FF" [] :=
  ((unused_config_noninterference load_default_config
    { load_default_config with
      max_bridges := 99, spawn_delay := 5,
      runtime_user := "nobody", a2dp_drift_comp := 0 } rfl).1
    ⟨none, fun _ _ => true, some 1, none⟩ "AA:BB:CC:DD:EE:FF" []).1

end AutoBridge
